import Mathlib

/-!
Shallow embedding of `src/src/main.c` from the SIPF file-download sample
application (nRF9160 firmware).  External calls (modem library, key store,
LTE control, GPIO, cloud client) are modelled by environments that supply
each call's result; every embedded routine returns its C status code
together with a trace of the externally observable events it performs,
in program order.
-/

/-- Constant TLS_SEC_TAG from main.c: the modem key-store security tag. -/
def TLS_SEC_TAG : Nat := 42

/-- Constant REGISTER_TIMEOUT_MS from main.c: per-attempt attach timeout. -/
def REGISTER_TIMEOUT_MS : Nat := 120000

/-- Constant REGISTER_TRY from main.c: the attach attempt budget. -/
def REGISTER_TRY : Nat := 3

/-- Constant LED_HEARTBEAT_MS from main.c. -/
def LED_HEARTBEAT_MS : Int := 500

/-- Constant SZ_USER_NAME from main.c: size of the user_name buffer. -/
def SZ_USER_NAME : Nat := 255

/-- Constant SZ_PASSWORD from main.c: size of the password buffer. -/
def SZ_PASSWORD : Nat := 255

/-- Size of work_buff from main.c (uint8_t work_buff[1024]). -/
def SZ_WORK_BUFF : Nat := 1024

/-- POSIX errno EAGAIN, the code k_sem_take returns on timeout (negated). -/
def EAGAIN : Int := 11

/-- POSIX errno ENODEV, returned (negated) when a device is not ready. -/
def ENODEV : Int := 19

/-- Observable events of the modem phase: key-store calls made by
cert_provision and LTE-control calls made by init_modem_and_lte. -/
inductive MEv where
  | keyExists (tag : Nat)
  | keyDelete (tag : Nat) (res : Int)
  | keyWrite (tag : Nat) (data : List UInt8) (res : Int)
  | modemLibInit
  | pdnCreate
  | pdnConfigure
  | lteInit
  | modemEventsEnable
  | printTrying (timeoutMs : Nat)
  | connectAsync
  | semTakeWait (timeoutMs : Nat) (res : Int)
  | printTimeout
  | lteOffline
  | lteDeinit
  | psmReq (res : Int)
  deriving DecidableEq

/-- Results of the key-store calls made by cert_provision: the result of
modem_key_mgmt_exists together with the flag it reports, and the results
of modem_key_mgmt_delete and modem_key_mgmt_write. -/
structure CertEnv where
  existsCallRes : Int
  existsFlag : Bool
  deleteRes : Int
  writeRes : Int

/-- Embedding of cert_provision (main.c lines 92 to 123): query the key
store under TLS_SEC_TAG, delete the entry if one exists (a delete failure
is only logged), then write the certificate minus its terminating null
byte, that is its first sizeof(cert) - 1 bytes. -/
def cert_provision (env : CertEnv) (cert : List UInt8) : Int × List MEv :=
  if env.existsCallRes ≠ 0 then
    (env.existsCallRes, [MEv.keyExists TLS_SEC_TAG])
  else
    let pre := [MEv.keyExists TLS_SEC_TAG] ++
      (if env.existsFlag then [MEv.keyDelete TLS_SEC_TAG env.deleteRes] else [])
    let wr := MEv.keyWrite TLS_SEC_TAG (cert.take (cert.length - 1)) env.writeRes
    if env.writeRes ≠ 0 then (env.writeRes, pre ++ [wr])
    else (0, pre ++ [wr])

/-- Results of the external calls made by one iteration of the connect
loop: lte_lc_init, lte_lc_connect_async, k_sem_take and lte_lc_psm_req. -/
structure AttemptEnv where
  lteInitRes : Int
  connectRes : Int
  semTakeRes : Int
  psmRes : Int

/-- Embedding of the CONNECT loop of init_modem_and_lte (main.c lines 188
to 230), with the remaining iteration budget as fuel and the current
attempt index.  Returns the C status code, the number of loop iterations
executed, and the event trace.  On timeout (k_sem_take returning -EAGAIN)
the modem is taken offline and de-initialized and the loop continues; on
any other k_sem_take error the code returns that error; exhausting the
budget returns -1. -/
def connectLoopAux (env : Nat → AttemptEnv) : Nat → Nat → Int × Nat × List MEv
  | 0, _ => (-1, 0, [])
  | fuel + 1, i =>
    if (env i).lteInitRes ≠ 0 then
      ((env i).lteInitRes, 1, [MEv.lteInit])
    else if (env i).connectRes ≠ 0 then
      ((env i).connectRes, 1,
        [MEv.lteInit, MEv.modemEventsEnable, MEv.printTrying REGISTER_TIMEOUT_MS,
         MEv.connectAsync])
    else if (env i).semTakeRes = -EAGAIN then
      ((connectLoopAux env fuel (i + 1)).1,
       (connectLoopAux env fuel (i + 1)).2.1 + 1,
       [MEv.lteInit, MEv.modemEventsEnable, MEv.printTrying REGISTER_TIMEOUT_MS,
        MEv.connectAsync, MEv.semTakeWait REGISTER_TIMEOUT_MS (env i).semTakeRes,
        MEv.printTimeout, MEv.lteOffline, MEv.lteDeinit] ++
          (connectLoopAux env fuel (i + 1)).2.2)
    else if (env i).semTakeRes = 0 then
      (0, 1,
        [MEv.lteInit, MEv.modemEventsEnable, MEv.printTrying REGISTER_TIMEOUT_MS,
         MEv.connectAsync, MEv.semTakeWait REGISTER_TIMEOUT_MS 0,
         MEv.psmReq (env i).psmRes])
    else
      ((env i).semTakeRes, 1,
        [MEv.lteInit, MEv.modemEventsEnable, MEv.printTrying REGISTER_TIMEOUT_MS,
         MEv.connectAsync, MEv.semTakeWait REGISTER_TIMEOUT_MS (env i).semTakeRes])

/-- Results of the external calls made by init_modem_and_lte before the
connect loop, together with the per-attempt results for the loop. -/
structure ModemEnv where
  modemLibInitRes : Int
  certEnv : CertEnv
  pdnCreateRes : Int
  pdnConfigureRes : Int
  attempt : Nat → AttemptEnv

/-- Embedding of init_modem_and_lte (main.c lines 155 to 231): modem
library init, certificate provisioning, PDN create and configure, then
the connect loop with budget REGISTER_TRY.  Returns the C status code,
the number of connect-loop iterations executed, and the event trace. -/
def init_modem_and_lte (env : ModemEnv) (cert : List UInt8) : Int × Nat × List MEv :=
  if env.modemLibInitRes ≠ 0 then (env.modemLibInitRes, 0, [MEv.modemLibInit])
  else if (cert_provision env.certEnv cert).1 ≠ 0 then
    ((cert_provision env.certEnv cert).1, 0,
      MEv.modemLibInit :: (cert_provision env.certEnv cert).2)
  else if env.pdnCreateRes ≠ 0 then
    (env.pdnCreateRes, 0,
      MEv.modemLibInit :: (cert_provision env.certEnv cert).2 ++ [MEv.pdnCreate])
  else if env.pdnConfigureRes ≠ 0 then
    (env.pdnConfigureRes, 0,
      MEv.modemLibInit :: (cert_provision env.certEnv cert).2 ++
        [MEv.pdnCreate, MEv.pdnConfigure])
  else
    ((connectLoopAux env.attempt REGISTER_TRY 0).1,
     (connectLoopAux env.attempt REGISTER_TRY 0).2.1,
     MEv.modemLibInit :: (cert_provision env.certEnv cert).2 ++
       [MEv.pdnCreate, MEv.pdnConfigure] ++
       (connectLoopAux env.attempt REGISTER_TRY 0).2.2)

/-- External failure results are negative errno values: the hypothesis
that every fallible call modelled in an AttemptEnv reports failure with a
negative code (0 means success). -/
def AttemptEnvNeg (a : AttemptEnv) : Prop :=
  a.lteInitRes ≤ 0 ∧ a.connectRes ≤ 0 ∧ a.semTakeRes ≤ 0

/-- The hypothesis that every fallible external call modelled in a
ModemEnv reports failure with a negative errno code. -/
def ModemEnvNeg (env : ModemEnv) : Prop :=
  env.modemLibInitRes ≤ 0 ∧ env.certEnv.existsCallRes ≤ 0 ∧
    env.certEnv.writeRes ≤ 0 ∧ env.pdnCreateRes ≤ 0 ∧
    env.pdnConfigureRes ≤ 0 ∧ ∀ i, AttemptEnvNeg (env.attempt i)

/-- True on a key-store write event that succeeded. -/
def isSuccWriteEv : MEv → Bool
  | MEv.keyWrite _ _ r => r == 0
  | _ => false

/-- Observable events of the authentication phase of main. -/
inductive AEv where
  | printSetAuthMode
  | authReq (k : Nat) (res : Int)
  | printRetryNotice
  | sleepMs (ms : Nat)
  | printOk
  | setAuth (user pass : List UInt8)
  deriving DecidableEq

/-- Results of the SipfAuthRequest calls: the status of the k-th call and
the contents of the user_name and password buffers after that call. -/
structure AuthEnv where
  res : Nat → Int
  userBuf : Nat → List UInt8
  passBuf : Nat → List UInt8

/-- Embedding of the authentication retry loop of main (main.c lines 288
to 300), with fuel bounding how many iterations are unrolled and the
current call index.  Each iteration prints the banner and calls
SipfAuthRequest; a negative status prints the retry notice, sleeps 10
seconds and retries; a non-negative status prints OK and exits with the
index of the successful call. -/
def authLoopAux (env : AuthEnv) : Nat → Nat → Option Nat × List AEv
  | 0, _ => (none, [])
  | fuel + 1, k =>
    if env.res k < 0 then
      ((authLoopAux env fuel (k + 1)).1,
        AEv.printSetAuthMode :: AEv.authReq k (env.res k) ::
          AEv.printRetryNotice :: AEv.sleepMs 10000 ::
            (authLoopAux env fuel (k + 1)).2)
    else
      (some k, [AEv.printSetAuthMode, AEv.authReq k (env.res k), AEv.printOk])

/-- Embedding of the authentication phase of main (main.c lines 288 to
305): run the retry loop and, when it exits with a successful call, hand
the buffer contents to SipfClientHttpSetAuthInfo. -/
def authPhase (env : AuthEnv) (fuel : Nat) : Option Nat × List AEv :=
  match authLoopAux env fuel 0 with
  | (some n, t) => (some n, t ++ [AEv.setAuth (env.userBuf n) (env.passBuf n)])
  | (none, t) => (none, t)

/-- True on a setAuth event. -/
def isSetAuthEv : AEv → Bool
  | AEv.setAuth _ _ => true
  | _ => false

/-- Observable events of one iteration of the operational loop of main. -/
inductive OpEv where
  | toggleStateLed
  | logButtonReadError
  | printButtonPushed
  | setStateLed (v : Int)
  | fileDownloadCall (bufCap : Nat)
  | printFailed
  | printReceived (n : Int)
  | sleepMs (ms : Nat)
  deriving DecidableEq

/-- External inputs of one iteration of the operational loop: the uptime
read, the value returned by gpio_pin_get_dt for the button, and the
result SipfFileDownload would return if called this iteration. -/
structure OpInput where
  msNow : Int
  btnVal : Int
  dlRes : Int

/-- Mutable state of the operational loop: the heartbeat deadline and the
previously stored button level btn_prev. -/
structure OpState where
  msTimeout : Int
  btnPrev : Int
  deriving DecidableEq

/-- Embedding of one iteration of the operational loop of main (main.c
lines 312 to 341): heartbeat LED toggle when the deadline has passed;
button read; on a negative read only log the error and keep btn_prev; on
a rising edge (btn_prev = 0 and btn_val = 1) run the file download and
report its result; store btn_val into btn_prev; sleep 10 ms. -/
def opStep (s : OpState) (inp : OpInput) : OpState × List OpEv :=
  let hb : Bool := decide (s.msTimeout - inp.msNow < 0)
  let msT : Int := if hb then inp.msNow + LED_HEARTBEAT_MS else s.msTimeout
  let hbEvs : List OpEv := if hb then [OpEv.toggleStateLed] else []
  if inp.btnVal < 0 then
    (⟨msT, s.btnPrev⟩, hbEvs ++ [OpEv.logButtonReadError, OpEv.sleepMs 10])
  else if s.btnPrev = 0 ∧ inp.btnVal = 1 then
    (⟨msT, inp.btnVal⟩,
      hbEvs ++
        [OpEv.printButtonPushed, OpEv.setStateLed 1,
         OpEv.fileDownloadCall SZ_WORK_BUFF] ++
        (if inp.dlRes < 0 then [OpEv.printFailed] else [OpEv.printReceived inp.dlRes]) ++
        [OpEv.setStateLed 0, OpEv.sleepMs 10])
  else
    (⟨msT, inp.btnVal⟩, hbEvs ++ [OpEv.sleepMs 10])

/-- The operational loop of main run over a finite list of iteration
inputs, folding opStep and concatenating the event traces. -/
def opLoop (s : OpState) : List OpInput → OpState × List OpEv
  | [] => (s, [])
  | inp :: rest =>
    ((opLoop (opStep s inp).1 rest).1,
      (opStep s inp).2 ++ (opLoop (opStep s inp).1 rest).2)

/-- True on a fileDownloadCall event. -/
def isDownloadEv : OpEv → Bool
  | OpEv.fileDownloadCall _ => true
  | _ => false

/-- Modelled from the spec: the number of observed rising edges of the
button over a sequence of read levels, where the stored previous level is
0 initially here given, negative reads are skipped without updating the
stored level, and an edge is counted when the stored level is 0 and the
current read is 1. -/
def spec_risingEdges (prev : Int) : List Int → Nat
  | [] => 0
  | v :: rest =>
    if v < 0 then spec_risingEdges prev rest
    else (if prev = 0 ∧ v = 1 then 1 else 0) + spec_risingEdges v rest

/-- The last successfully (non-negatively) read level in a sequence of
button reads, or the given stored level when there is none. -/
def lastGoodLevel (prev : Int) : List Int → Int
  | [] => prev
  | v :: rest => if v < 0 then lastGoodLevel prev rest else lastGoodLevel v rest

/-- Carriage return. -/
def charCR : Char := Char.ofNat 13

/-- Line feed. -/
def charLF : Char := Char.ofNat 10

/-- The character printf %x uses for one hex digit value: lowercase. -/
def hexDigitChar (n : Nat) : Char :=
  if n < 10 then Char.ofNat (48 + n) else Char.ofNat (97 + (n - 10))

/-- The two lowercase hex digits printf prints for one byte with %02x,
high digit first. -/
def byteHexChars (b : UInt8) : List Char :=
  [hexDigitChar (b.toNat / 16), hexDigitChar (b.toNat % 16)]

/-- Embedding of the printing for-loop of cb_fileDownload (main.c lines
242 to 244): two lowercase hex digits per byte, in buffer order. -/
def cb_hexChars : List UInt8 → List Char
  | [] => []
  | b :: rest => hexDigitChar (b.toNat / 16) :: hexDigitChar (b.toNat % 16) :: cb_hexChars rest

/-- Embedding of cb_fileDownload (main.c lines 239 to 249): print the
chunk as hex and append CR-LF when the chunk is shorter than
sizeof(work_buff). -/
def cb_fileDownload (buff : List UInt8) : List Char :=
  cb_hexChars buff ++ (if buff.length < SZ_WORK_BUFF then [charCR, charLF] else [])

/-- True on a lowercase hexadecimal digit character. -/
def isLowerHexChar (c : Char) : Bool :=
  (48 ≤ c.toNat && c.toNat ≤ 57) || (97 ≤ c.toNat && c.toNat ≤ 102)

/-- Observable events of the peripheral initialization phase of main. -/
inductive PEv where
  | cfgLedBootInactive
  | cfgLedStateInactive
  | cfgBtnInput
  | setLedBoot (v : Int)
  deriving DecidableEq

/-- Device readiness as reported by device_is_ready for the three GPIO
devices referenced by main. -/
structure PeriphEnv where
  ledBootReady : Bool
  ledStateReady : Bool
  btnReady : Bool
  deriving DecidableEq

/-- Embedding of led_init (main.c lines 72 to 85): check led_boot, drive
it inactive, check led_state, drive it inactive; return -ENODEV as soon
as a device is not ready. -/
def led_init (env : PeriphEnv) : Int × List PEv :=
  if !env.ledBootReady then (-ENODEV, [])
  else if !env.ledStateReady then (-ENODEV, [PEv.cfgLedBootInactive])
  else (0, [PEv.cfgLedBootInactive, PEv.cfgLedStateInactive])

/-- Embedding of button_init (main.c lines 61 to 69): return -ENODEV when
the button device is not ready, else configure it as an input. -/
def button_init (env : PeriphEnv) : Int × List PEv :=
  if !env.btnReady then (-ENODEV, []) else (0, [PEv.cfgBtnInput])

/-- All three GPIO devices referenced by main are ready. -/
def periphAllReady (env : PeriphEnv) : Bool :=
  env.ledBootReady && env.ledStateReady && env.btnReady

/-- Embedding of the peripheral phase of main (main.c lines 271 to 279):
call led_init ignoring its result, switch the boot LED on, then call
button_init; only a button_init failure switches the boot LED off and
jumps to the terminal error state.  The Bool is true when the error
state is reached. -/
def mainPeriphPhase (env : PeriphEnv) : Bool × List PEv :=
  if (button_init env).1 ≠ 0 then
    (true, (led_init env).2 ++ [PEv.setLedBoot 1] ++ (button_init env).2 ++
      [PEv.setLedBoot 0])
  else
    (false, (led_init env).2 ++ [PEv.setLedBoot 1] ++ (button_init env).2)

/-- The second (user-capacity) argument of the SipfAuthRequest call at
main.c line 290, as a function of the two buffer-size macros: the source
passes sizeof(user_name). -/
def sipfAuthRequest_userCapArg (szUserName _szPassword : Nat) : Nat := szUserName

/-- The fourth (password-capacity) argument of the SipfAuthRequest call
at main.c line 290, as a function of the two buffer-size macros: the
source passes sizeof(user_name) here as well, not sizeof(password). -/
def sipfAuthRequest_passCapArg (szUserName _szPassword : Nat) : Nat := szUserName

/-! Helper lemmas. -/

/-- The result of cert_provision is 0 or negative when the external calls
report failure with negative codes. -/
theorem cert_provision_res_sign (env : CertEnv) (cert : List UInt8)
    (h1 : env.existsCallRes ≤ 0) (h2 : env.writeRes ≤ 0) :
    (cert_provision env cert).1 = 0 ∨ (cert_provision env cert).1 < 0 := by
  by_cases e1 : env.existsCallRes = 0
  · by_cases e2 : env.writeRes = 0
    · simp [cert_provision, e1, e2]
    · right
      simp [cert_provision, e1, e2]
      omega
  · right
    simp [cert_provision, e1]
    omega

/-- The connect loop returns 0 or a negative code and runs at most fuel
iterations, when external failures are reported with negative codes. -/
theorem connectLoopAux_spec (env : Nat → AttemptEnv) (h : ∀ i, AttemptEnvNeg (env i)) :
    ∀ fuel i, ((connectLoopAux env fuel i).1 = 0 ∨ (connectLoopAux env fuel i).1 < 0) ∧
      (connectLoopAux env fuel i).2.1 ≤ fuel := by
  intro fuel
  induction fuel with
  | zero =>
    intro i
    constructor
    · right; norm_num [connectLoopAux]
    · norm_num [connectLoopAux]
  | succ f ih =>
    intro i
    obtain ⟨h1, h2, h3⟩ := h i
    by_cases e1 : (env i).lteInitRes = 0
    · by_cases e2 : (env i).connectRes = 0
      · by_cases e3 : (env i).semTakeRes = -EAGAIN
        · have hrec := ih (i + 1)
          constructor
          · simpa [connectLoopAux, e1, e2, e3] using hrec.1
          · have := hrec.2
            simp [connectLoopAux, e1, e2, e3]
            omega
        · by_cases e4 : (env i).semTakeRes = 0
          · simp [connectLoopAux, EAGAIN, e1, e2, e3, e4]
          · constructor
            · right; simp [connectLoopAux, e1, e2, e3, e4]; omega
            · simp [connectLoopAux, e1, e2, e3, e4]
      · constructor
        · right; simp [connectLoopAux, e1, e2]; omega
        · simp [connectLoopAux, e1, e2]
    · constructor
      · right; simp [connectLoopAux, e1]; omega
      · simp [connectLoopAux, e1]

/-- A nonempty run of the connect loop always begins with an lte_lc_init
event. -/
theorem connectLoopAux_head (env : Nat → AttemptEnv) (fuel i : Nat) (h : 0 < fuel) :
    ((connectLoopAux env fuel i).2.2).head? = some MEv.lteInit := by
  cases fuel with
  | zero => omega
  | succ f =>
    by_cases e1 : (env i).lteInitRes = 0
    · by_cases e2 : (env i).connectRes = 0
      · by_cases e3 : (env i).semTakeRes = -EAGAIN
        · simp [connectLoopAux, e1, e2, e3]
        · by_cases e4 : (env i).semTakeRes = 0
          · simp [connectLoopAux, EAGAIN, e1, e2, e3, e4]
          · simp [connectLoopAux, e1, e2, e3, e4]
      · simp [connectLoopAux, e1, e2]
    · simp [connectLoopAux, e1]

/-- C1: the network bring-up makes at most REGISTER_TRY = 3 attach
attempts: every execution of init_modem_and_lte runs at most 3 iterations
of the connect loop and returns either success (0, Attached) or failure
(a negative code, AttachFailed); the loop budget bounds it, so it never
loops indefinitely. -/
theorem C1_attach_attempts_bounded (env : ModemEnv) (cert : List UInt8)
    (h : ModemEnvNeg env) :
    (init_modem_and_lte env cert).2.1 ≤ REGISTER_TRY ∧
      ((init_modem_and_lte env cert).1 = 0 ∨ (init_modem_and_lte env cert).1 < 0) := by
  obtain ⟨h1, h2, h3, h4, h5, h6⟩ := h
  by_cases e1 : env.modemLibInitRes = 0
  · by_cases e2 : (cert_provision env.certEnv cert).1 = 0
    · by_cases e3 : env.pdnCreateRes = 0
      · by_cases e4 : env.pdnConfigureRes = 0
        · have hloop := connectLoopAux_spec env.attempt h6 REGISTER_TRY 0
          constructor
          · simpa [init_modem_and_lte, e1, e2, e3, e4] using hloop.2
          · simpa [init_modem_and_lte, e1, e2, e3, e4] using hloop.1
        · constructor
          · simp [init_modem_and_lte, e1, e2, e3, e4, REGISTER_TRY]
          · right; simp [init_modem_and_lte, e1, e2, e3, e4]; omega
      · constructor
        · simp [init_modem_and_lte, e1, e2, e3, REGISTER_TRY]
        · right; simp [init_modem_and_lte, e1, e2, e3]; omega
    · have hc := cert_provision_res_sign env.certEnv cert h2 h3
      constructor
      · simp [init_modem_and_lte, e1, e2, REGISTER_TRY]
      · right
        simp [init_modem_and_lte, e1, e2]
        rcases hc with hc | hc
        · exact absurd hc e2
        · exact hc
  · constructor
    · simp [init_modem_and_lte, e1, REGISTER_TRY]
    · right; simp [init_modem_and_lte, e1]; omega

theorem C1_attach_attempts_bounded_witness :
    (init_modem_and_lte ⟨0, ⟨0, false, 0, 0⟩, 0, 0, fun _ => ⟨0, 0, 0, 0⟩⟩ [65, 0]).2.1 ≤ REGISTER_TRY ∧
      ((init_modem_and_lte ⟨0, ⟨0, false, 0, 0⟩, 0, 0, fun _ => ⟨0, 0, 0, 0⟩⟩ [65, 0]).1 = 0 ∨
        (init_modem_and_lte ⟨0, ⟨0, false, 0, 0⟩, 0, 0, fun _ => ⟨0, 0, 0, 0⟩⟩ [65, 0]).1 < 0) :=
  C1_attach_attempts_bounded _ _
    ⟨le_refl 0, le_refl 0, le_refl 0, le_refl 0, le_refl 0,
      fun _ => ⟨le_refl 0, le_refl 0, le_refl 0⟩⟩

/-- C2: for every attach attempt that times out (k_sem_take on the
lte_connected semaphore returns -EAGAIN after REGISTER_TIMEOUT_MS), the
iteration's trace ends with lte_lc_offline followed by lte_lc_deinit,
and the continuation (the next attempt, when the budget is not yet
exhausted) begins with lte_lc_init: both calls happen before the next
attempt's lte_lc_init. -/
theorem C2_timeout_offline_deinit_before_next_init (env : Nat → AttemptEnv)
    (i fuel : Nat) (h1 : (env i).lteInitRes = 0) (h2 : (env i).connectRes = 0)
    (h3 : (env i).semTakeRes = -EAGAIN) :
    (connectLoopAux env (fuel + 1) i).2.2 =
      [MEv.lteInit, MEv.modemEventsEnable, MEv.printTrying REGISTER_TIMEOUT_MS,
       MEv.connectAsync, MEv.semTakeWait REGISTER_TIMEOUT_MS (-EAGAIN),
       MEv.printTimeout, MEv.lteOffline, MEv.lteDeinit] ++
        (connectLoopAux env fuel (i + 1)).2.2 ∧
      (0 < fuel → ((connectLoopAux env fuel (i + 1)).2.2).head? = some MEv.lteInit) := by
  constructor
  · simp [connectLoopAux, h1, h2, h3]
  · intro hf
    exact connectLoopAux_head env fuel (i + 1) hf

theorem C2_timeout_offline_deinit_before_next_init_witness :
    (connectLoopAux (fun _ => ⟨0, 0, -EAGAIN, 0⟩) 2 0).2.2 =
      [MEv.lteInit, MEv.modemEventsEnable, MEv.printTrying REGISTER_TIMEOUT_MS,
       MEv.connectAsync, MEv.semTakeWait REGISTER_TIMEOUT_MS (-EAGAIN),
       MEv.printTimeout, MEv.lteOffline, MEv.lteDeinit] ++
        (connectLoopAux (fun _ => ⟨0, 0, -EAGAIN, 0⟩) 1 1).2.2 ∧
      (0 < 1 → ((connectLoopAux (fun _ => ⟨0, 0, -EAGAIN, 0⟩) 1 1).2.2).head? = some MEv.lteInit) :=
  C2_timeout_offline_deinit_before_next_init (fun _ => ⟨0, 0, -EAGAIN, 0⟩) 0 1 rfl rfl rfl

/-- C3: cert_provision performs at most one successful key-store write,
always under security tag TLS_SEC_TAG = 42; when the existence query
reports an entry under that tag, the delete call is issued before the
write; and the data passed to every write is the embedded certificate
blob minus its terminating null byte (its first sizeof(cert) - 1 bytes,
that is cert.dropLast). -/
theorem C3_cert_provision_delete_then_single_write (env : CertEnv) (cert : List UInt8) :
    ((cert_provision env cert).2.countP isSuccWriteEv) ≤ 1 ∧
      (env.existsCallRes = 0 → env.existsFlag = true →
        (cert_provision env cert).2 =
          [MEv.keyExists TLS_SEC_TAG, MEv.keyDelete TLS_SEC_TAG env.deleteRes,
           MEv.keyWrite TLS_SEC_TAG cert.dropLast env.writeRes]) ∧
      (∀ tag d r, MEv.keyWrite tag d r ∈ (cert_provision env cert).2 →
        tag = TLS_SEC_TAG ∧ d = cert.dropLast) := by
  have hdl : cert.take (cert.length - 1) = cert.dropLast := by
    rw [List.dropLast_eq_take]
  by_cases e1 : env.existsCallRes = 0
  · by_cases e2 : env.existsFlag = true
    · by_cases e3 : env.writeRes = 0
      · refine ⟨?_, ?_, ?_⟩
        · simp [cert_provision, e1, e2, e3, List.countP_cons, isSuccWriteEv]
        · intro _ _
          simp [cert_provision, e1, e2, e3, hdl]
        · intro tag d r hmem
          simp [cert_provision, e1, e2, e3] at hmem
          simp_all [hdl]
      · refine ⟨?_, ?_, ?_⟩
        · simp [cert_provision, e1, e2, e3, List.countP_cons, isSuccWriteEv]
        · intro _ _
          simp [cert_provision, e1, e2, e3, hdl]
        · intro tag d r hmem
          simp [cert_provision, e1, e2, e3] at hmem
          simp_all [hdl]
    · by_cases e3 : env.writeRes = 0
      · refine ⟨?_, ?_, ?_⟩
        · simp [cert_provision, e1, e2, e3, List.countP_cons, isSuccWriteEv]
        · intro _ h2
          exact absurd h2 e2
        · intro tag d r hmem
          simp [cert_provision, e1, e2, e3] at hmem
          simp_all [hdl]
      · refine ⟨?_, ?_, ?_⟩
        · simp [cert_provision, e1, e2, e3, List.countP_cons, isSuccWriteEv]
        · intro _ h2
          exact absurd h2 e2
        · intro tag d r hmem
          simp [cert_provision, e1, e2, e3] at hmem
          simp_all [hdl]
  · refine ⟨?_, ?_, ?_⟩
    · simp [cert_provision, e1, List.countP_cons, isSuccWriteEv]
    · intro h1
      exact absurd h1 e1
    · intro tag d r hmem
      simp [cert_provision, e1] at hmem

theorem C3_cert_provision_delete_then_single_write_witness :
    ((cert_provision ⟨0, true, 0, 0⟩ [65, 0]).2.countP isSuccWriteEv) ≤ 1 ∧
      (cert_provision ⟨0, true, 0, 0⟩ [65, 0]).2 =
        [MEv.keyExists TLS_SEC_TAG, MEv.keyDelete TLS_SEC_TAG 0,
         MEv.keyWrite TLS_SEC_TAG (([65, 0] : List UInt8).dropLast) 0] :=
  ⟨(C3_cert_provision_delete_then_single_write ⟨0, true, 0, 0⟩ [65, 0]).1,
   (C3_cert_provision_delete_then_single_write ⟨0, true, 0, 0⟩ [65, 0]).2.1 rfl rfl⟩

/-- A run of the authentication loop that exits did so at a call with a
non-negative result, all calls from the starting index up to it having
returned a negative result. -/
theorem authLoopAux_some_spec (env : AuthEnv) :
    ∀ fuel k n, (authLoopAux env fuel k).1 = some n →
      0 ≤ env.res n ∧ k ≤ n ∧ ∀ j, k ≤ j → j < n → env.res j < 0 := by
  intro fuel
  induction fuel with
  | zero =>
    intro k n h
    simp [authLoopAux] at h
  | succ f ih =>
    intro k n h
    by_cases e : env.res k < 0
    · simp only [authLoopAux, if_pos e] at h
      obtain ⟨hres, hk, hall⟩ := ih (k + 1) n h
      refine ⟨hres, by omega, fun j hj1 hj2 => ?_⟩
      rcases eq_or_lt_of_le hj1 with rfl | hlt
      · exact e
      · exact hall j (by omega) hj2
    · simp only [authLoopAux, if_neg e] at h
      simp at h
      subst h
      exact ⟨not_lt.mp e, le_refl k, fun j hj1 hj2 => absurd hj1 (by omega)⟩

/-- When every call returns a negative result, the authentication loop
never exits, whatever the unrolling budget. -/
theorem authLoopAux_none_spec (env : AuthEnv) (hall : ∀ j, env.res j < 0) :
    ∀ fuel k, (authLoopAux env fuel k).1 = none := by
  intro fuel
  induction fuel with
  | zero => intro k; simp [authLoopAux]
  | succ f ih =>
    intro k
    simp only [authLoopAux, if_pos (hall k)]
    exact ih (k + 1)

/-- The authentication loop itself never emits a setAuth event. -/
theorem authLoopAux_no_setAuth (env : AuthEnv) :
    ∀ fuel k u p, AEv.setAuth u p ∉ (authLoopAux env fuel k).2 := by
  intro fuel
  induction fuel with
  | zero => intro k u p; simp [authLoopAux]
  | succ f ih =>
    intro k u p
    by_cases e : env.res k < 0
    · simp only [authLoopAux, if_pos e]
      intro hmem
      simp only [List.mem_cons] at hmem
      rcases hmem with h | h | h | h | h
      · exact absurd h (by simp)
      · exact absurd h (by simp)
      · exact absurd h (by simp)
      · exact absurd h (by simp)
      · exact ih (k + 1) u p h
    · simp [authLoopAux, if_neg e]

/-- C4: whenever SipfAuthRequest returns a negative status the program
emits the retry notice, sleeps 10000 ms and calls SipfAuthRequest again;
the loop exits only at a call with a non-negative status (every earlier
call having been negative); and there is no bound on the retries: when
every call is negative the loop never exits, whatever the unrolling
budget. -/
theorem C4_auth_retry_until_success :
    (∀ env fuel k n, (authLoopAux env fuel k).1 = some n →
        0 ≤ env.res n ∧ ∀ j, k ≤ j → j < n → env.res j < 0) ∧
      (∀ env fuel k, env.res k < 0 →
        authLoopAux env (fuel + 1) k =
          ((authLoopAux env fuel (k + 1)).1,
            AEv.printSetAuthMode :: AEv.authReq k (env.res k) ::
              AEv.printRetryNotice :: AEv.sleepMs 10000 ::
                (authLoopAux env fuel (k + 1)).2)) ∧
      (∀ env fuel k, (∀ j, env.res j < 0) → (authLoopAux env fuel k).1 = none) := by
  refine ⟨?_, ?_, ?_⟩
  · intro env fuel k n h
    obtain ⟨h1, _, h3⟩ := authLoopAux_some_spec env fuel k n h
    exact ⟨h1, h3⟩
  · intro env fuel k h
    simp [authLoopAux, if_pos h]
  · intro env fuel k hall
    exact authLoopAux_none_spec env hall fuel k

theorem C4_auth_retry_until_success_witness :
    (authLoopAux ⟨fun _ => -1, fun _ => [], fun _ => []⟩ 5 0).1 = none ∧
      authLoopAux ⟨fun _ => -1, fun _ => [], fun _ => []⟩ 1 0 =
        ((authLoopAux ⟨fun _ => -1, fun _ => [], fun _ => []⟩ 0 1).1,
          AEv.printSetAuthMode :: AEv.authReq 0 (-1) ::
            AEv.printRetryNotice :: AEv.sleepMs 10000 ::
              (authLoopAux ⟨fun _ => -1, fun _ => [], fun _ => []⟩ 0 1).2) :=
  ⟨C4_auth_retry_until_success.2.2 ⟨fun _ => -1, fun _ => [], fun _ => []⟩ 5 0
      (fun _ => by norm_num),
   C4_auth_retry_until_success.2.1 ⟨fun _ => -1, fun _ => [], fun _ => []⟩ 0 0
      (by norm_num)⟩

/-- C5: the authentication phase calls SipfClientHttpSetAuthInfo at most
once, and any setAuth event carries exactly the buffer contents left by
the first SipfAuthRequest call that returned a non-negative status. -/
theorem C5_setAuth_once_with_success_creds (env : AuthEnv) (fuel : Nat) :
    ((authPhase env fuel).2.countP isSetAuthEv) ≤ 1 ∧
      (∀ u p, AEv.setAuth u p ∈ (authPhase env fuel).2 →
        ∃ n, 0 ≤ env.res n ∧ (∀ j < n, env.res j < 0) ∧
          u = env.userBuf n ∧ p = env.passBuf n) := by
  have hns : ∀ u p, AEv.setAuth u p ∉ (authLoopAux env fuel 0).2 :=
    fun u p => authLoopAux_no_setAuth env fuel 0 u p
  have hz : (authLoopAux env fuel 0).2.countP isSetAuthEv = 0 := by
    rw [List.countP_eq_zero]
    intro a ha
    cases a with
    | setAuth u p => exact absurd ha (hns u p)
    | _ => simp [isSetAuthEv]
  unfold authPhase
  cases hl : authLoopAux env fuel 0 with
  | mk o t =>
    have ht : t = (authLoopAux env fuel 0).2 := by rw [hl]
    cases o with
    | none =>
      refine ⟨?_, ?_⟩
      · simp only []
        rw [ht, hz]
        omega
      · intro u p hmem
        rw [ht] at hmem
        exact absurd hmem (hns u p)
    | some n =>
      have hsome := authLoopAux_some_spec env fuel 0 n (by rw [hl])
      refine ⟨?_, ?_⟩
      · simp only [List.countP_append]
        rw [ht, hz]
        simp [List.countP_cons, isSetAuthEv]
      · intro u p hmem
        simp only [List.mem_append, List.mem_singleton] at hmem
        rcases hmem with hmem | hmem
        · rw [ht] at hmem
          exact absurd hmem (hns u p)
        · have hu : u = env.userBuf n := by
            injection hmem with h1 h2
          have hp : p = env.passBuf n := by
            injection hmem with h1 h2
          exact ⟨n, hsome.1, fun j hj => hsome.2.2 j (Nat.zero_le j) hj, hu, hp⟩

theorem C5_setAuth_once_with_success_creds_witness :
    ((authPhase ⟨fun _ => 0, fun _ => [117], fun _ => [112]⟩ 1).2.countP isSetAuthEv) ≤ 1 ∧
      (∃ n, 0 ≤ (⟨fun _ => 0, fun _ => [117], fun _ => [112]⟩ : AuthEnv).res n ∧
        (∀ j < n, (⟨fun _ => 0, fun _ => [117], fun _ => [112]⟩ : AuthEnv).res j < 0) ∧
        ([117] : List UInt8) = (⟨fun _ => 0, fun _ => [117], fun _ => [112]⟩ : AuthEnv).userBuf n ∧
        ([112] : List UInt8) = (⟨fun _ => 0, fun _ => [117], fun _ => [112]⟩ : AuthEnv).passBuf n) :=
  ⟨(C5_setAuth_once_with_success_creds ⟨fun _ => 0, fun _ => [117], fun _ => [112]⟩ 1).1,
   (C5_setAuth_once_with_success_creds ⟨fun _ => 0, fun _ => [117], fun _ => [112]⟩ 1).2
     [117] [112] (by simp [authPhase, authLoopAux])⟩

/-- The stored button level after one loop iteration: unchanged on a
negative read, else the value just read. -/
theorem opStep_btnPrev (s : OpState) (inp : OpInput) :
    (opStep s inp).1.btnPrev = if inp.btnVal < 0 then s.btnPrev else inp.btnVal := by
  by_cases e1 : inp.btnVal < 0
  · simp [opStep, e1]
  · by_cases e2 : s.btnPrev = 0 ∧ inp.btnVal = 1
    · simp [opStep, e1, e2]
    · simp [opStep, e1, e2]

/-- One loop iteration calls SipfFileDownload exactly once on a rising
edge of the button and never otherwise. -/
theorem opStep_download_count (s : OpState) (inp : OpInput) :
    ((opStep s inp).2.countP isDownloadEv) =
      if s.btnPrev = 0 ∧ inp.btnVal = 1 then 1 else 0 := by
  by_cases e1 : inp.btnVal < 0
  · have hc : ¬(s.btnPrev = 0 ∧ inp.btnVal = 1) := by
      rintro ⟨_, h⟩
      omega
    simp only [opStep, if_pos e1, if_neg hc]
    simp [List.countP_append, List.countP_cons, isDownloadEv]
  · by_cases e2 : s.btnPrev = 0 ∧ inp.btnVal = 1
    · simp only [opStep, if_neg e1, if_pos e2, if_pos e2]
      simp [List.countP_append, List.countP_cons, isDownloadEv]
      split <;> split <;> simp [isDownloadEv]
    · simp only [opStep, if_neg e1, if_neg e2]
      simp [List.countP_append, List.countP_cons, isDownloadEv]

/-- Over any run of the operational loop, the number of SipfFileDownload
calls equals the number of rising edges observed on the successfully
read button levels. -/
theorem opLoop_download_count (s : OpState) (inps : List OpInput) :
    ((opLoop s inps).2.countP isDownloadEv) =
      spec_risingEdges s.btnPrev (inps.map OpInput.btnVal) := by
  induction inps generalizing s with
  | nil => simp [opLoop, spec_risingEdges]
  | cons inp rest ih =>
    have hstep := opStep_download_count s inp
    have hprev := opStep_btnPrev s inp
    by_cases e1 : inp.btnVal < 0
    · have hc : ¬(s.btnPrev = 0 ∧ inp.btnVal = 1) := by
        rintro ⟨_, h⟩
        omega
      simp only [opLoop, List.countP_append, hstep, if_neg hc, ih,
        List.map_cons, spec_risingEdges, if_pos e1, hprev]
      omega
    · simp only [opLoop, List.countP_append, hstep, ih,
        List.map_cons, spec_risingEdges, if_neg e1, hprev]

/-- The stored button level after any run of the operational loop is the
last successfully read level (or the initial one if none). -/
theorem opLoop_btnPrev (s : OpState) (inps : List OpInput) :
    (opLoop s inps).1.btnPrev = lastGoodLevel s.btnPrev (inps.map OpInput.btnVal) := by
  induction inps generalizing s with
  | nil => simp [opLoop, lastGoodLevel]
  | cons inp rest ih =>
    have hprev := opStep_btnPrev s inp
    by_cases e1 : inp.btnVal < 0
    · simp only [opLoop, ih, List.map_cons, lastGoodLevel, if_pos e1, hprev]
    · simp only [opLoop, ih, List.map_cons, lastGoodLevel, if_neg e1, hprev]

/-- C7: in the operational loop, SipfFileDownload is invoked exactly once
per observed rising edge of the button: each iteration calls it exactly
once when the previously stored level is 0 and the read level is 1 and
never otherwise (so a held button does not fire twice and a falling edge
never fires), and over any run the number of calls equals the number of
observed rising edges. -/
theorem C7_download_exactly_on_rising_edge :
    (∀ s inp, ((opStep s inp).2.countP isDownloadEv) =
        if s.btnPrev = 0 ∧ inp.btnVal = 1 then 1 else 0) ∧
      (∀ s inps, ((opLoop s inps).2.countP isDownloadEv) =
        spec_risingEdges s.btnPrev (inps.map OpInput.btnVal)) :=
  ⟨opStep_download_count, opLoop_download_count⟩

/-- C10: a loop iteration whose button read returns a negative error
leaves btn_prev unchanged and triggers no download, and after any run of
the loop btn_prev equals the last successfully read level, so edge
detection compares against the last successful read. -/
theorem C10_read_error_keeps_btnPrev :
    (∀ s inp, inp.btnVal < 0 →
        (opStep s inp).1.btnPrev = s.btnPrev ∧
          ((opStep s inp).2.countP isDownloadEv) = 0) ∧
      (∀ s inps, (opLoop s inps).1.btnPrev =
        lastGoodLevel s.btnPrev (inps.map OpInput.btnVal)) := by
  constructor
  · intro s inp h
    constructor
    · rw [opStep_btnPrev, if_pos h]
    · rw [opStep_download_count]
      have hc : ¬(s.btnPrev = 0 ∧ inp.btnVal = 1) := by
        rintro ⟨_, h2⟩
        omega
      rw [if_neg hc]
  · exact opLoop_btnPrev

theorem C10_read_error_keeps_btnPrev_witness :
    (opStep ⟨0, 1⟩ ⟨0, -1, 0⟩).1.btnPrev = (1 : Int) ∧
      ((opStep ⟨0, 1⟩ ⟨0, -1, 0⟩).2.countP isDownloadEv) = 0 :=
  C10_read_error_keeps_btnPrev.1 ⟨0, 1⟩ ⟨0, -1, 0⟩ (by norm_num)

/-- Each hex-digit value below 16 prints as a lowercase hex character. -/
theorem hexDigitChar_isLower : ∀ n, n < 16 → isLowerHexChar (hexDigitChar n) = true := by
  decide

/-- The printing loop of cb_fileDownload emits exactly the two %02x
digits of each byte, in buffer order. -/
theorem cb_hexChars_eq_flatMap (buff : List UInt8) :
    cb_hexChars buff = buff.flatMap byteHexChars := by
  induction buff with
  | nil => simp [cb_hexChars]
  | cons b rest ih => simp [cb_hexChars, byteHexChars, ih]

/-- The printing loop of cb_fileDownload emits two characters per byte. -/
theorem cb_hexChars_length (buff : List UInt8) :
    (cb_hexChars buff).length = 2 * buff.length := by
  induction buff with
  | nil => simp [cb_hexChars]
  | cons b rest ih =>
    simp [cb_hexChars, ih]
    omega

/-- Every character the printing loop of cb_fileDownload emits is a
lowercase hex digit. -/
theorem cb_hexChars_lower (buff : List UInt8) :
    ∀ c ∈ cb_hexChars buff, isLowerHexChar c = true := by
  induction buff with
  | nil => simp [cb_hexChars]
  | cons b rest ih =>
    intro c hc
    have hb : b.toNat < 256 := UInt8.toNat_lt b
    simp only [cb_hexChars, List.mem_cons] at hc
    rcases hc with rfl | rfl | hc
    · exact hexDigitChar_isLower _ (Nat.div_lt_of_lt_mul (by omega))
    · exact hexDigitChar_isLower _ (Nat.mod_lt _ (by norm_num))
    · exact ih c hc

/-- C8: for every chunk delivered to the download callback, the callback
prints exactly 2 * len lowercase hex characters, two digits per byte in
order, and appends CR-LF exactly when len < 1024 (the capacity of
work_buff). -/
theorem C8_hex_chunk_output (buff : List UInt8) :
    cb_fileDownload buff =
        cb_hexChars buff ++ (if buff.length < 1024 then [charCR, charLF] else []) ∧
      cb_hexChars buff = buff.flatMap byteHexChars ∧
      (cb_hexChars buff).length = 2 * buff.length ∧
      (∀ c ∈ cb_hexChars buff, isLowerHexChar c = true) ∧
      (List.IsSuffix [charCR, charLF] (cb_fileDownload buff) ↔ buff.length < 1024) := by
  refine ⟨rfl, cb_hexChars_eq_flatMap buff, cb_hexChars_length buff, cb_hexChars_lower buff, ?_, ?_⟩
  · intro hsuf
    by_contra h1024
    have hcb : cb_fileDownload buff = cb_hexChars buff := by
      simp [cb_fileDownload, SZ_WORK_BUFF]
      omega
    obtain ⟨t, ht⟩ := hsuf
    have hmem : charCR ∈ cb_hexChars buff := by
      rw [← hcb, ← ht]
      simp
    have := cb_hexChars_lower buff charCR hmem
    simp [isLowerHexChar, charCR] at this
  · intro h
    refine ⟨cb_hexChars buff, ?_⟩
    simp [cb_fileDownload, SZ_WORK_BUFF, h]

theorem C8_hex_chunk_output_witness :
    (cb_hexChars [255]).length = 2 * ([255] : List UInt8).length ∧
      isLowerHexChar (hexDigitChar ((255 : UInt8).toNat / 16)) = true ∧
      (List.IsSuffix [charCR, charLF] (cb_fileDownload [255]) ↔ ([255] : List UInt8).length < 1024) :=
  ⟨(C8_hex_chunk_output [255]).2.2.1,
   (C8_hex_chunk_output [255]).2.2.2.1 (hexDigitChar ((255 : UInt8).toNat / 16))
     (by simp [cb_hexChars]),
   (C8_hex_chunk_output [255]).2.2.2.2⟩

/-- C9 counterexample: with the led_boot device not ready but the button
ready, a referenced device is not ready, yet main does not reach the
terminal error-indicator state: main calls led_init without checking its
return value, so only a button_init failure jumps to the error loop.
This refutes the claim that boot reaches the terminal error state
whenever any referenced device is not ready. -/
theorem C9_led_not_ready_no_error_state :
    periphAllReady ⟨false, true, true⟩ = false ∧
      (mainPeriphPhase ⟨false, true, true⟩).1 = false := by
  constructor
  · rfl
  · rfl

/-- C9 amended: the boot reaches the terminal error-indicator state
exactly when the button device is not ready; led_init does report
-ENODEV exactly when an LED device is not ready, but main ignores its
result; and when all devices are ready both LEDs are driven inactive and
the button is configured as an input. -/
theorem C9_error_state_iff_button_not_ready (env : PeriphEnv) :
    ((mainPeriphPhase env).1 = true ↔ env.btnReady = false) ∧
      ((led_init env).1 ≠ 0 ↔ (env.ledBootReady = false ∨ env.ledStateReady = false)) ∧
      (periphAllReady env = true →
        (mainPeriphPhase env).2 =
          [PEv.cfgLedBootInactive, PEv.cfgLedStateInactive, PEv.setLedBoot 1,
           PEv.cfgBtnInput]) := by
  obtain ⟨b1, b2, b3⟩ := env
  cases b1 <;> cases b2 <;> cases b3 <;>
    refine ⟨by decide, by decide, by decide⟩

theorem C9_error_state_iff_button_not_ready_witness :
    (mainPeriphPhase ⟨true, true, true⟩).2 =
      [PEv.cfgLedBootInactive, PEv.cfgLedStateInactive, PEv.setLedBoot 1,
       PEv.cfgBtnInput] :=
  (C9_error_state_iff_button_not_ready ⟨true, true, true⟩).2.2 rfl

/-- C6: the SipfAuthRequest call in main passes sizeof(user_name) as the
password-capacity argument, so that argument is not the password
buffer's own capacity as a quantity: it coincides with SZ_PASSWORD only
because SZ_USER_NAME = SZ_PASSWORD = 255; as a function of the two
buffer sizes it tracks the user buffer, and at user size 255 with
password size 300 it stays strictly below the password buffer's size. -/
theorem C6_passCap_is_userBuf_size :
    sipfAuthRequest_passCapArg SZ_USER_NAME SZ_PASSWORD = SZ_USER_NAME ∧
      sipfAuthRequest_passCapArg SZ_USER_NAME SZ_PASSWORD = SZ_PASSWORD ∧
      sipfAuthRequest_passCapArg 255 300 < 300 := by
  refine ⟨rfl, rfl, ?_⟩
  norm_num [sipfAuthRequest_passCapArg]
